import Mathlib

/-!
Verification of the convex-paddle webhook component.

This file gives a shallow embedding of the webhook event ledger
(`src/component/private.ts`), the webhook signature verifier and route
handler (library source reproduced in the repository README), and the
entity handlers for subscriptions and transactions, together with
theorems settling the specification claims.

Modelling conventions:
- The `webhook_events` table is viewed through its unique index
  `by_paddle_event_id` as a function `String → Option EventRecord`
  (the code always accesses it via `.withIndex(...).unique()`).
- `Date.now()` becomes an explicit `now : Int` parameter (epoch ms).
- Convex document ids (`_id`) are irrelevant for the keyed ledger view;
  transactions carry an explicit numeric `id` field standing for `_id`.
- The HMAC-SHA256 primitive is `crypto.subtle` (an external runtime
  API, not repository code); it is abstracted as an oracle parameter
  returning the MAC bytes, or `none` when the crypto call throws.
-/

namespace ConvexPaddle

/-- Status values of a `webhook_events` row (`schema.ts`): the field is
`v.optional(v.union(...))` of these three literals. -/
inductive EventStatus
  | processing
  | processed
  | processed_pending
deriving DecidableEq, Repr

/-- One row of the `webhook_events` table (`schema.ts` lines 73-89).
`status` is optional in the schema; `processedAt` is the lock timestamp. -/
structure EventRecord where
  paddleEventId : String
  eventType : String
  occurredAt : String
  processedAt : Int
  status : Option EventStatus
deriving DecidableEq, Repr

/-- The `webhook_events` table seen through its unique
`by_paddle_event_id` index. -/
def Ledger : Type := String → Option EventRecord

/-- `LOCK_TTL_MS = 10 * 60 * 1000` from `private.ts` line 14. -/
def LOCK_TTL_MS : Int := 10 * 60 * 1000

/-- The insert at `private.ts` lines 73-79: a fresh `processing` record
with `processedAt = Date.now()`.  When a stale record was deleted just
before, inserting at the same event id overwrites the keyed view. -/
def acquireLock (now : Int) (paddleEventId eventType occurredAt : String)
    (db : Ledger) : Ledger :=
  fun id =>
    if id = paddleEventId then
      some { paddleEventId := paddleEventId, eventType := eventType,
             occurredAt := occurredAt, processedAt := now,
             status := some EventStatus.processing }
    else db id

/-- `checkAndRecordEvent` (`private.ts` lines 34-83).  Returns
`true` (ALREADY_DONE) when the caller should skip, `false` (ACQUIRED)
when the lock was newly taken.  An absent `status` defaults to
`processed` (`existing.status ?? "processed"`, line 50). -/
def checkAndRecordEvent (now : Int) (paddleEventId eventType occurredAt : String)
    (db : Ledger) : Bool × Ledger :=
  match db paddleEventId with
  | some existing =>
    match existing.status.getD EventStatus.processed with
    | EventStatus.processed => (true, db)
    | EventStatus.processed_pending => (true, db)
    | EventStatus.processing =>
      if LOCK_TTL_MS < now - existing.processedAt then
        (false, acquireLock now paddleEventId eventType occurredAt db)
      else (true, db)
  | none => (false, acquireLock now paddleEventId eventType occurredAt db)

/-- The `status` argument of `markEventProcessed` is validated to be one
of the two permanent literals (`private.ts` lines 96-98). -/
inductive MarkStatus
  | processed
  | processed_pending
deriving DecidableEq, Repr

def MarkStatus.toEventStatus : MarkStatus → EventStatus
  | MarkStatus.processed => EventStatus.processed
  | MarkStatus.processed_pending => EventStatus.processed_pending

/-- `markEventProcessed` (`private.ts` lines 93-119): patch the existing
record (if any) to `status ?? "processed"` and refresh `processedAt`. -/
def markEventProcessed (now : Int) (paddleEventId : String)
    (status : Option MarkStatus) (db : Ledger) : Ledger :=
  let targetStatus := (status.getD MarkStatus.processed).toEventStatus
  match db paddleEventId with
  | some existing =>
    fun id =>
      if id = paddleEventId then
        some { existing with status := some targetStatus, processedAt := now }
      else db id
  | none => db

/-- `unreserveEvent` (`private.ts` lines 125-145): delete the record only
when it exists with `status === "processing"` (strict equality — an
absent status is not deleted). -/
def unreserveEvent (paddleEventId : String) (db : Ledger) : Ledger :=
  match db paddleEventId with
  | some existing =>
    if existing.status = some EventStatus.processing then
      fun id => if id = paddleEventId then none else db id
    else db
  | none => db

/-- `true` exactly on the two permanent status values. -/
def isPermanentStatus : Option EventStatus → Bool
  | some EventStatus.processed => true
  | some EventStatus.processed_pending => true
  | _ => false

/-- `true` when a record is present and permanently recorded. -/
def recordPermanent : Option EventRecord → Bool
  | some r => isPermanentStatus r.status
  | none => false

/-- `true` when a present record carries an explicit status (the data
model of spec section 3, where `status` is always one of three values). -/
def statusPresent : Option EventRecord → Bool
  | some r => r.status.isSome
  | none => true

/-- One call to any of the three ledger mutations. -/
inductive LedgerOp
  | checkAndRecord (now : Int) (paddleEventId eventType occurredAt : String)
  | mark (now : Int) (paddleEventId : String) (status : Option MarkStatus)
  | unreserve (paddleEventId : String)

def applyLedgerOp (op : LedgerOp) (db : Ledger) : Ledger :=
  match op with
  | LedgerOp.checkAndRecord now e t o => (checkAndRecordEvent now e t o db).2
  | LedgerOp.mark now e st => markEventProcessed now e st db
  | LedgerOp.unreserve e => unreserveEvent e db

def applyLedgerOps (ops : List LedgerOp) (db : Ledger) : Ledger :=
  ops.foldl (fun d op => applyLedgerOp op d) db

/-- Concrete records for witnesses. -/
def recProcessed : EventRecord :=
  { paddleEventId := "evt_1", eventType := "t", occurredAt := "o",
    processedAt := 0, status := some EventStatus.processed }

def recPending : EventRecord :=
  { paddleEventId := "evt_1", eventType := "t", occurredAt := "o",
    processedAt := 0, status := some EventStatus.processed_pending }

def recProcessing : EventRecord :=
  { paddleEventId := "evt_1", eventType := "t", occurredAt := "o",
    processedAt := 0, status := some EventStatus.processing }

def recNoStatus : EventRecord :=
  { paddleEventId := "evt_1", eventType := "t", occurredAt := "o",
    processedAt := 0, status := none }

/-- A ledger holding exactly one record, at that record's event id. -/
def ledgerWith (r : EventRecord) : Ledger :=
  fun id => if id = r.paddleEventId then some r else none

@[simp] theorem recordPermanent_none : recordPermanent none = false := rfl

@[simp] theorem recordPermanent_some (r : EventRecord) :
    recordPermanent (some r) = isPermanentStatus r.status := rfl

@[simp] theorem isPermanentStatus_none : isPermanentStatus none = false := rfl

@[simp] theorem isPermanentStatus_processing :
    isPermanentStatus (some EventStatus.processing) = false := rfl

@[simp] theorem isPermanentStatus_processed :
    isPermanentStatus (some EventStatus.processed) = true := rfl

@[simp] theorem isPermanentStatus_pending :
    isPermanentStatus (some EventStatus.processed_pending) = true := rfl

/-- C1: once a ledger record for an event id has status `processed` or
`processed_pending`, any call to `checkAndRecordEvent` for it returns
ALREADY_DONE (`true`) and leaves the whole ledger unchanged regardless
of the current time, and `unreserveEvent` also leaves it unchanged. -/
theorem c1_permanence (now : Int) (eid ety occ : String) (db : Ledger)
    (h : recordPermanent (db eid) = true) :
    checkAndRecordEvent now eid ety occ db = (true, db) ∧
    unreserveEvent eid db = db := by
  cases hdb : db eid with
  | none => rw [hdb] at h; exact absurd h (by simp)
  | some r =>
    rw [hdb, recordPermanent_some] at h
    cases hs : r.status with
    | none => rw [hs] at h; exact absurd h (by simp)
    | some st =>
      rw [hs] at h
      cases st with
      | processing => exact absurd h (by simp)
      | processed =>
        constructor
        · simp [checkAndRecordEvent, hdb, hs]
        · simp [unreserveEvent, hdb, hs]
      | processed_pending =>
        constructor
        · simp [checkAndRecordEvent, hdb, hs]
        · simp [unreserveEvent, hdb, hs]

/-- C1 witness at a concrete permanently-processed ledger. -/
theorem c1_permanence_witness :
    checkAndRecordEvent 99999999 "evt_1" "t" "o" (ledgerWith recProcessed)
      = (true, ledgerWith recProcessed) ∧
    unreserveEvent "evt_1" (ledgerWith recProcessed) = ledgerWith recProcessed :=
  c1_permanence 99999999 "evt_1" "t" "o" (ledgerWith recProcessed) (by decide)

/-- C9: a `webhook_events` record whose optional `status` field is absent
is treated as permanently processed: `checkAndRecordEvent` returns
ALREADY_DONE without touching the ledger, at any current time, and
`unreserveEvent` never deletes it. -/
theorem c9_absent_status_permanent (now : Int) (eid ety occ : String)
    (db : Ledger) (r : EventRecord)
    (h1 : db eid = some r) (h2 : r.status = none) :
    checkAndRecordEvent now eid ety occ db = (true, db) ∧
    unreserveEvent eid db = db := by
  constructor
  · simp [checkAndRecordEvent, h1, h2]
  · simp [unreserveEvent, h1, h2]

/-- C9 witness at a concrete record with no status field. -/
theorem c9_absent_status_permanent_witness :
    checkAndRecordEvent 123456789 "evt_1" "t" "o" (ledgerWith recNoStatus)
      = (true, ledgerWith recNoStatus) ∧
    unreserveEvent "evt_1" (ledgerWith recNoStatus) = ledgerWith recNoStatus :=
  c9_absent_status_permanent 123456789 "evt_1" "t" "o" (ledgerWith recNoStatus)
    recNoStatus (by decide) (by decide)

/-- The four-step admission algorithm exactly as the specification states
it (spec section 4.2 / claim C2): absent record → insert `processing`
with `lock_timestamp = now`, ACQUIRED; permanent status → ALREADY_DONE;
fresh `processing` lock (`now - lock_timestamp ≤ LOCK_TTL`) →
ALREADY_DONE; otherwise (stale) → delete, insert fresh, ACQUIRED.  The
spec data model has no absent-status records; that branch follows the
literal "otherwise (stale lock)" reading and is ruled out by the
`statusPresent` hypothesis of the refinement theorem. -/
def admitSpec (now : Int) (paddleEventId eventType occurredAt : String)
    (db : Ledger) : Bool × Ledger :=
  match db paddleEventId with
  | none => (false, acquireLock now paddleEventId eventType occurredAt db)
  | some r =>
    match r.status with
    | some EventStatus.processed => (true, db)
    | some EventStatus.processed_pending => (true, db)
    | some EventStatus.processing =>
      if now - r.processedAt ≤ LOCK_TTL_MS then (true, db)
      else (false, acquireLock now paddleEventId eventType occurredAt db)
    | none => (false, acquireLock now paddleEventId eventType occurredAt db)

/-- C2: on every ledger state of the spec data model (existing records
carry an explicit status), `checkAndRecordEvent` computes exactly the
four-step admission algorithm with `LOCK_TTL` = 10 minutes: same
ALREADY_DONE/ACQUIRED answer and same resulting ledger. -/
theorem c2_admission_algorithm (now : Int) (eid ety occ : String) (db : Ledger)
    (h : statusPresent (db eid) = true) :
    checkAndRecordEvent now eid ety occ db = admitSpec now eid ety occ db := by
  unfold checkAndRecordEvent admitSpec
  cases hdb : db eid with
  | none => rfl
  | some r =>
    cases hs : r.status with
    | none =>
      exfalso
      simp [statusPresent, hdb, hs] at h
    | some st =>
      cases st with
      | processed => simp [hs]
      | processed_pending => simp [hs]
      | processing =>
        simp only [hs]
        rcases lt_or_le LOCK_TTL_MS (now - r.processedAt) with hlt | hle
        · rw [if_pos hlt, if_neg (not_le.mpr hlt)]
          rfl
        · rw [if_neg (not_lt.mpr hle), if_pos hle]
          rfl

/-- C2 witness at a concrete fresh `processing` lock. -/
theorem c2_admission_algorithm_witness :
    checkAndRecordEvent 1000 "evt_1" "t" "o" (ledgerWith recProcessing)
      = admitSpec 1000 "evt_1" "t" "o" (ledgerWith recProcessing) :=
  c2_admission_algorithm 1000 "evt_1" "t" "o" (ledgerWith recProcessing) (by decide)

/-- Each single ledger operation keeps a permanently recorded event id
permanently recorded. -/
theorem applyLedgerOp_preserves_permanent (op : LedgerOp) (db : Ledger)
    (eid : String) (h : recordPermanent (db eid) = true) :
    recordPermanent (applyLedgerOp op db eid) = true := by
  cases op with
  | checkAndRecord now e t o =>
    show recordPermanent ((checkAndRecordEvent now e t o db).2 eid) = true
    unfold checkAndRecordEvent
    cases hdb : db e with
    | none =>
      simp only []
      unfold acquireLock
      by_cases he : eid = e
      · rw [he] at h; rw [hdb] at h; simp at h
      · simp [he, h]
    | some r =>
      cases hs : r.status with
      | none => simp [hs, h]
      | some st =>
        cases st with
        | processed => simp [hs, h]
        | processed_pending => simp [hs, h]
        | processing =>
          simp only [hs, Option.getD_some]
          by_cases hstale : LOCK_TTL_MS < now - r.processedAt
          · rw [if_pos hstale]
            unfold acquireLock
            by_cases he : eid = e
            · rw [he, hdb] at h; rw [recordPermanent_some, hs] at h; simp at h
            · simp [he, h]
          · rw [if_neg hstale]; exact h
  | mark now e st =>
    show recordPermanent (markEventProcessed now e st db eid) = true
    unfold markEventProcessed
    cases hdb : db e with
    | none => simp [h]
    | some r =>
      simp only []
      by_cases he : eid = e
      · rw [if_pos he]
        rw [recordPermanent_some]
        cases hst : st.getD MarkStatus.processed with
        | processed => simp [hst, MarkStatus.toEventStatus]
        | processed_pending => simp [hst, MarkStatus.toEventStatus]
      · rw [if_neg he]; exact h
  | unreserve e =>
    show recordPermanent (unreserveEvent e db eid) = true
    unfold unreserveEvent
    cases hdb : db e with
    | none => simp [h]
    | some r =>
      simp only []
      by_cases hp : r.status = some EventStatus.processing
      · rw [if_pos hp]
        by_cases he : eid = e
        · rw [he, hdb, recordPermanent_some, hp] at h; simp at h
        · simp [he, h]
      · rw [if_neg hp]; exact h

/-- C3 counterexample: starting from a record with status `processed`,
the single call `markEventProcessed(evt_1, status := processed_pending)`
changes the status to `processed_pending`, so the status does not stay
exactly as it was. -/
theorem c3_counterexample :
    (applyLedgerOps [LedgerOp.mark 5 "evt_1" (some MarkStatus.processed_pending)]
        (ledgerWith recProcessed) "evt_1").map EventRecord.status
      = some (some EventStatus.processed_pending) ∧
    (ledgerWith recProcessed "evt_1").map EventRecord.status
      = some (some EventStatus.processed) ∧
    some EventStatus.processed_pending ≠ some EventStatus.processed := by
  refine ⟨?_, by decide, by decide⟩
  show (markEventProcessed 5 "evt_1" (some MarkStatus.processed_pending)
      (ledgerWith recProcessed) "evt_1").map EventRecord.status
    = some (some EventStatus.processed_pending)
  rfl

/-- C3 amended: a ledger record with status `processed` or
`processed_pending` is never deleted and never re-locked by any sequence
of calls to `checkAndRecordEvent`, `markEventProcessed`, `unreserveEvent`
for any event ids: its status always remains one of the two permanent
values (though `markEventProcessed` may switch between the two). -/
theorem c3_permanent_invariant (ops : List LedgerOp) (db : Ledger)
    (eid : String) (h : recordPermanent (db eid) = true) :
    recordPermanent (applyLedgerOps ops db eid) = true := by
  induction ops generalizing db with
  | nil => exact h
  | cons op rest ih =>
    exact ih (applyLedgerOp op db) (applyLedgerOp_preserves_permanent op db eid h)

/-- C3 amended-claim witness: a concrete permanent record survives a
concrete sequence of all three operations. -/
theorem c3_permanent_invariant_witness :
    recordPermanent (applyLedgerOps
      [LedgerOp.checkAndRecord 99999999 "evt_1" "t" "o",
       LedgerOp.mark 7 "evt_1" (some MarkStatus.processed_pending),
       LedgerOp.unreserve "evt_1"]
      (ledgerWith recPending) "evt_1") = true :=
  c3_permanent_invariant
    [LedgerOp.checkAndRecord 99999999 "evt_1" "t" "o",
     LedgerOp.mark 7 "evt_1" (some MarkStatus.processed_pending),
     LedgerOp.unreserve "evt_1"]
    (ledgerWith recPending) "evt_1" (by decide)

/-! ### Signature verification (`verifyPaddleWebhookSignature`, README
lines 1238-1291). JS string primitives are modelled structurally over
`List Char`. -/

/-- JS `s.split(sep)` for a one-character separator. -/
def splitListChar (sep : Char) : List Char → List (List Char)
  | [] => [[]]
  | c :: cs =>
    let r := splitListChar sep cs
    if c = sep then [] :: r
    else
      match r with
      | h :: t => (c :: h) :: t
      | [] => [[c]]

def splitOnChar (sep : Char) (s : String) : List String :=
  (splitListChar sep s.toList).map String.mk

/-- JS `s.startsWith(tag)`. -/
def listStartsWith : List Char → List Char → Bool
  | _, [] => true
  | [], _ :: _ => false
  | c :: cs, p :: ps => c = p && listStartsWith cs ps

/-- Whitespace skipped by JS `parseInt`. -/
def isWsChar (c : Char) : Bool :=
  c = ' ' || c = '\t' || c = '\n' || c = '\r' || c = '\x0b' || c = '\x0c'

def digitVal (c : Char) : Nat := c.toNat - '0'.toNat

def natFromDigits (ds : List Char) : Nat :=
  ds.foldl (fun a c => a * 10 + digitVal c) 0

/-- JS `parseInt(s, 10)`: skip leading whitespace, read an optional
sign, then the longest prefix of decimal digits; `NaN` (here `none`)
when that prefix is empty, otherwise the value ignoring any trailing
garbage. -/
def jsParseIntDec (s : String) : Option Int :=
  let cs := s.toList.dropWhile isWsChar
  let signed : Bool × List Char :=
    match cs with
    | '-' :: r => (true, r)
    | '+' :: r => (false, r)
    | r => (false, r)
  let ds := signed.2.takeWhile Char.isDigit
  if ds.isEmpty then none
  else if signed.1 then some (-(natFromDigits ds : Int))
  else some (natFromDigits ds : Int)

/-- One lowercase hex digit, as produced by JS `b.toString(16)`. -/
def hexDigitChar (n : Nat) : Char :=
  if n < 10 then Char.ofNat (48 + n) else Char.ofNat (97 + n - 10)

/-- `b.toString(16).padStart(2, "0")` for a byte. -/
def byteToHex (b : Fin 256) : List Char :=
  [hexDigitChar (b.val / 16), hexDigitChar (b.val % 16)]

/-- The hex join at README lines 1277-1279. -/
def hexEncode (bs : List (Fin 256)) : String :=
  String.mk (bs.flatMap byteToHex)

/-- The constant-time comparison at README lines 1281-1287: a length
check, then OR-accumulated XOR of the char codes. -/
def constantTimeEq (a b : String) : Bool :=
  if a.length = b.length then
    ((a.toList.zip b.toList).foldl
        (fun acc p => acc ||| (p.1.toNat ^^^ p.2.toNat)) 0) == 0
  else false

/-- `WEBHOOK_MAX_AGE_SECONDS = 300` (README line 1236). -/
def WEBHOOK_MAX_AGE_SECONDS : Nat := 300

def tsTag : List Char := ['t', 's', '=']

def h1Tag : List Char := ['h', '1', '=']

/-- The value of a `key=` part of the signature header: the first
semicolon-separated part starting with the tag, split on `=`, index 1
(`undefined` coalesced to `""` never occurs since the tag contains
`=`, but the JS index access is modelled as written). -/
def sigPartValue (tag : List Char) (header : String) : Option String :=
  match (splitOnChar ';' header).find? (fun p => listStartsWith p.toList tag) with
  | some f => some (((splitOnChar '=' f)[1]?).getD "")
  | none => none

/-- `verifyPaddleWebhookSignature` (README lines 1238-1291).
`hmacSha256Bytes secret payload` abstracts the Web Crypto HMAC-SHA256
call; `none` models the crypto call throwing (caught, yielding `false`).
`nowSeconds` is `Math.floor(Date.now() / 1000)`. -/
def verifyPaddleWebhookSignature
    (hmacSha256Bytes : String → String → Option (List (Fin 256)))
    (nowSeconds : Int) (rawBody secret signatureHeader : String) : Bool :=
  match sigPartValue tsTag signatureHeader, sigPartValue h1Tag signatureHeader with
  | some ts, some h1 =>
    if ts = "" ∨ h1 = "" then false
    else
      match jsParseIntDec ts with
      | none => false
      | some tsSeconds =>
        if WEBHOOK_MAX_AGE_SECONDS < (nowSeconds - tsSeconds).natAbs then false
        else
          match hmacSha256Bytes secret (ts ++ ":" ++ rawBody) with
          | none => false
          | some sigBytes => constantTimeEq (hexEncode sigBytes) h1
  | _, _ => false


theorem natOr_eq_zero (a b : Nat) : (a ||| b) = 0 ↔ a = 0 ∧ b = 0 := by
  constructor
  · intro h
    constructor
    · apply Nat.zero_of_testBit_eq_false
      intro i
      have h2 := congrArg (fun n => Nat.testBit n i) h
      simp [Nat.testBit_lor] at h2
      exact h2.1
    · apply Nat.zero_of_testBit_eq_false
      intro i
      have h2 := congrArg (fun n => Nat.testBit n i) h
      simp [Nat.testBit_lor] at h2
      exact h2.2
  · rintro ⟨rfl, rfl⟩; rfl

theorem or_foldl_eq_zero (l : List (Char × Char)) (a : Nat) :
    (l.foldl (fun acc p => acc ||| (p.1.toNat ^^^ p.2.toNat)) a = 0) ↔
      (a = 0 ∧ ∀ p ∈ l, p.1 = p.2) := by
  induction l generalizing a with
  | nil => simp
  | cons hd tl ih =>
    rw [List.foldl_cons, ih, natOr_eq_zero]
    constructor
    · rintro ⟨⟨ha, hx⟩, htl⟩
      refine ⟨ha, ?_⟩
      intro p hp
      rcases List.mem_cons.mp hp with rfl | hmem
      · exact Char.eq_of_val_eq (UInt32.ext (Nat.xor_eq_zero.mp hx))
      · exact htl p hmem
    · rintro ⟨ha, hall⟩
      exact ⟨⟨ha, Nat.xor_eq_zero.mpr
          (congrArg Char.toNat (hall hd (List.mem_cons_self hd tl)))⟩,
        fun p hp => hall p (List.mem_cons_of_mem hd hp)⟩

theorem zip_pointwise_eq : ∀ (l1 l2 : List Char), l1.length = l2.length →
    ((∀ p ∈ l1.zip l2, p.1 = p.2) ↔ l1 = l2)
  | [], [], _ => by simp
  | [], _ :: _, h => by simp at h
  | _ :: _, [], h => by simp at h
  | c :: cs, d :: ds, h => by
    have ih := zip_pointwise_eq cs ds (by simpa using h)
    constructor
    · intro hall
      have hcd : c = d := hall (c, d) (List.mem_cons_self _ _)
      have hrest : cs = ds := ih.mp (fun p hp => hall p (List.mem_cons_of_mem _ hp))
      rw [hcd, hrest]
    · intro heq
      injection heq with h1 h2
      subst h1; subst h2
      intro p hp
      rcases List.mem_cons.mp hp with rfl | hmem
      · rfl
      · exact (zip_pointwise_eq cs cs rfl).mpr rfl p hmem

/-- The constant-time loop decides exactly string equality. -/
theorem constantTimeEq_iff (a b : String) : constantTimeEq a b = true ↔ a = b := by
  unfold constantTimeEq
  by_cases hlen : a.length = b.length
  · rw [if_pos hlen, beq_iff_eq, or_foldl_eq_zero]
    have hl : a.toList.length = b.toList.length := hlen
    constructor
    · rintro ⟨-, hall⟩
      exact String.ext ((zip_pointwise_eq _ _ hl).mp hall)
    · rintro rfl
      exact ⟨rfl, (zip_pointwise_eq _ _ rfl).mpr rfl⟩
  · rw [if_neg hlen]
    simp only [Bool.false_eq_true, false_iff]
    intro h
    exact hlen (by rw [h])

/-- C4: the verifier accepts exactly when the header has `ts=` and `h1=`
fields with non-empty values, the `ts` value parses (JS `parseInt`) to a
timestamp within 300 seconds of now, the HMAC-SHA256 of
`"{ts}:{raw_body}"` under the secret is computed without a crypto
error, and the `h1` value equals its lowercase hex encoding.  Being a
total function into `Bool`, the verifier never propagates an exception;
every parsing or crypto failure lands in a `false` branch. -/
theorem c4_signature_verification
    (hm : String → String → Option (List (Fin 256)))
    (now : Int) (rawBody secret header : String) :
    verifyPaddleWebhookSignature hm now rawBody secret header = true ↔
      ∃ ts h1 tsSeconds mac,
        sigPartValue tsTag header = some ts ∧ ts ≠ "" ∧
        sigPartValue h1Tag header = some h1 ∧ h1 ≠ "" ∧
        jsParseIntDec ts = some tsSeconds ∧
        (now - tsSeconds).natAbs ≤ WEBHOOK_MAX_AGE_SECONDS ∧
        hm secret (ts ++ ":" ++ rawBody) = some mac ∧
        h1 = hexEncode mac := by
  unfold verifyPaddleWebhookSignature
  cases hts : sigPartValue tsTag header with
  | none =>
    cases hh1 : sigPartValue h1Tag header with
    | none => simp
    | some h1 => simp
  | some ts =>
    cases hh1 : sigPartValue h1Tag header with
    | none => simp
    | some h1 =>
      simp only [Option.some.injEq]
      by_cases hemp : ts = "" ∨ h1 = ""
      · rw [if_pos hemp]
        constructor
        · intro h; exact absurd h (by simp)
        · rintro ⟨ts2, h12, t, mac, rfl, hne1, rfl, hne2, -⟩
          rcases hemp with he | he
          · exact absurd he hne1
          · exact absurd he hne2
      · rw [if_neg hemp]
        rcases not_or.mp hemp with ⟨hne1, hne2⟩
        cases hpi : jsParseIntDec ts with
        | none =>
          constructor
          · intro h; exact absurd h (by simp)
          · rintro ⟨ts2, h12, t, mac, rfl, -, rfl, -, hpi2, -⟩
            rw [hpi] at hpi2
            cases hpi2
        | some tsSeconds =>
          by_cases hage : WEBHOOK_MAX_AGE_SECONDS < (now - tsSeconds).natAbs
          · simp only [hage, if_true]
            constructor
            · intro h; exact absurd h (by simp)
            · rintro ⟨ts2, h12, t, mac, rfl, -, rfl, -, hpi2, hwin, -⟩
              rw [hpi] at hpi2
              injection hpi2 with e2
              subst e2
              exact absurd hwin (not_le.mpr hage)
          · simp only [hage, if_false]
            cases hmac : hm secret (ts ++ ":" ++ rawBody) with
            | none =>
              constructor
              · intro h; exact absurd h (by simp)
              · rintro ⟨ts2, h12, t, mac, rfl, -, rfl, -, -, -, hmac2, -⟩
                rw [hmac] at hmac2
                cases hmac2
            | some mac =>
              rw [show (match some mac with
                  | none => false
                  | some sigBytes => constantTimeEq (hexEncode sigBytes) h1)
                  = constantTimeEq (hexEncode mac) h1 from rfl, constantTimeEq_iff]
              constructor
              · intro h
                exact ⟨ts, h1, tsSeconds, mac, rfl, hne1, rfl, hne2, hpi,
                  not_lt.mp hage, hmac, h.symm⟩
              · rintro ⟨ts2, h12, t, mac2, rfl, -, rfl, -, hpi2, -, hmac2, heq⟩
                rw [hmac] at hmac2
                injection hmac2 with e3
                subst e3
                exact heq.symm

/-! ### The webhook route handler (`registerRoutes`, README lines
1323-1469).  Entity-table effects and custom handlers are folded into an
abstract `dispatchEffects : σ → Option σ` (`none` = dispatch threw);
JSON parsing is an abstract `parseEvent`.  Ledger mutations are pure
here, so the catch-around-admission and the `processed_pending`
fallback paths (storage failures) have no enabled trigger. -/

/-- The parsed body fields the route handler reads. -/
structure PaddleEvent where
  event_id : String
  event_type : String
  occurred_at : String
deriving DecidableEq, Repr

/-- An inbound request: the `paddle-signature` header and the raw body. -/
structure WebhookRequest where
  signatureHeader : Option String
  body : String

/-- Outcome of one request: HTTP status, ledger state, entity-effect
state, whether `checkAndRecordEvent` was invoked, and whether it
returned ACQUIRED. -/
structure WebhookResult (σ : Type) where
  status : Nat
  ledger : Ledger
  effects : σ
  admissionCalled : Bool
  acquired : Bool

/-- The POST handler registered by `registerRoutes`: missing secret →
500; missing `paddle-signature` header → 400; failed verification →
400; unparseable JSON → 400; then admission, dispatch, and
finalize-or-unreserve. -/
def handleWebhook {σ : Type}
    (hmacSha256Bytes : String → String → Option (List (Fin 256)))
    (parseEvent : String → Option PaddleEvent)
    (dispatchEffects : σ → Option σ)
    (nowSeconds nowMs : Int) (webhookSecret : Option String)
    (req : WebhookRequest) (db : Ledger) (effects : σ) : WebhookResult σ :=
  match webhookSecret with
  | none => ⟨500, db, effects, false, false⟩
  | some secret =>
    match req.signatureHeader with
    | none => ⟨400, db, effects, false, false⟩
    | some signature =>
      if verifyPaddleWebhookSignature hmacSha256Bytes nowSeconds req.body
          secret signature then
        match parseEvent req.body with
        | none => ⟨400, db, effects, false, false⟩
        | some event =>
          let admission :=
            checkAndRecordEvent nowMs event.event_id event.event_type
              event.occurred_at db
          if admission.1 then ⟨200, admission.2, effects, true, false⟩
          else
            match dispatchEffects effects with
            | some effects2 =>
              ⟨200, markEventProcessed nowMs event.event_id none admission.2,
                effects2, true, true⟩
            | none =>
              ⟨500, unreserveEvent event.event_id admission.2, effects, true, true⟩
      else ⟨400, db, effects, false, false⟩
/-- C7: a request with a missing signature header, or one whose header
fails verification (wrong digest, stale timestamp, malformed fields),
is answered 400 with the ledger untouched, the entity state untouched,
and admission never invoked. -/
theorem c7_authentication_precedes_admission {σ : Type}
    (hm : String → String → Option (List (Fin 256)))
    (parseEvent : String → Option PaddleEvent) (dispatchEffects : σ → Option σ)
    (nowSeconds nowMs : Int) (secret : String)
    (req : WebhookRequest) (db : Ledger) (effects : σ)
    (hrej : req.signatureHeader = none ∨
      ∃ sig, req.signatureHeader = some sig ∧
        verifyPaddleWebhookSignature hm nowSeconds req.body secret sig = false) :
    (handleWebhook hm parseEvent dispatchEffects nowSeconds nowMs (some secret)
        req db effects).status = 400 ∧
    (handleWebhook hm parseEvent dispatchEffects nowSeconds nowMs (some secret)
        req db effects).ledger = db ∧
    (handleWebhook hm parseEvent dispatchEffects nowSeconds nowMs (some secret)
        req db effects).effects = effects ∧
    (handleWebhook hm parseEvent dispatchEffects nowSeconds nowMs (some secret)
        req db effects).admissionCalled = false := by
  rcases hrej with hnone | ⟨sig, hsig, hbad⟩
  · simp [handleWebhook, hnone]
  · simp [handleWebhook, hsig, hbad]

/-- A concrete request with no signature header. -/
def reqNoSig : WebhookRequest := { signatureHeader := none, body := "body" }

/-- C7 witness: a concrete unsigned request over an empty ledger. -/
theorem c7_authentication_precedes_admission_witness :
    (handleWebhook (fun _ _ => none) (fun _ => none) (fun n : Nat => some n)
        0 0 (some "whsec") reqNoSig (fun _ => none) 0).status = 400 ∧
    (handleWebhook (fun _ _ => none) (fun _ => none) (fun n : Nat => some n)
        0 0 (some "whsec") reqNoSig (fun _ => none) 0).ledger = (fun _ => none) ∧
    (handleWebhook (fun _ _ => none) (fun _ => none) (fun n : Nat => some n)
        0 0 (some "whsec") reqNoSig (fun _ => none) 0).effects = 0 ∧
    (handleWebhook (fun _ _ => none) (fun _ => none) (fun n : Nat => some n)
        0 0 (some "whsec") reqNoSig (fun _ => none) 0).admissionCalled = false :=
  c7_authentication_precedes_admission (fun _ _ => none) (fun _ => none)
    (fun n : Nat => some n) 0 0 "whsec" reqNoSig (fun _ => none) 0 (Or.inl rfl)

/-- An admission that returns ACQUIRED leaves a fresh `processing` lock
at its own event id. -/
theorem checkAndRecordEvent_acquired (now : Int) (e t o : String) (db : Ledger)
    (h : (checkAndRecordEvent now e t o db).1 = false) :
    (checkAndRecordEvent now e t o db).2 e =
      some { paddleEventId := e, eventType := t, occurredAt := o,
             processedAt := now, status := some EventStatus.processing } := by
  cases hdb : db e with
  | none => simp [checkAndRecordEvent, hdb, acquireLock]
  | some r =>
    cases hs : r.status with
    | none => exfalso; simp [checkAndRecordEvent, hdb, hs] at h
    | some st =>
      cases st with
      | processed => exfalso; simp [checkAndRecordEvent, hdb, hs] at h
      | processed_pending => exfalso; simp [checkAndRecordEvent, hdb, hs] at h
      | processing =>
        by_cases hstale : LOCK_TTL_MS < now - r.processedAt
        · simp [checkAndRecordEvent, hdb, hs, hstale, acquireLock]
        · exfalso; simp [checkAndRecordEvent, hdb, hs, hstale] at h

/-- C6: `unreserveEvent` deletes a record exactly when it exists with
status `processing` and changes nothing else; consequently, when effect
dispatch throws after the lock was acquired, the route handler answers
500 and the ledger record for that event id is gone (deleted by
`unreserveEvent`) — in particular it is never left as `processed`. -/
theorem c6_failure_rollback {σ : Type}
    (hm : String → String → Option (List (Fin 256)))
    (parseEvent : String → Option PaddleEvent) (dispatchEffects : σ → Option σ)
    (nowSeconds nowMs : Int) (secret : String)
    (req : WebhookRequest) (db : Ledger) (effects : σ) (ev : PaddleEvent)
    (hparse : parseEvent req.body = some ev)
    (hfail : dispatchEffects effects = none)
    (hacq : (handleWebhook hm parseEvent dispatchEffects nowSeconds nowMs
        (some secret) req db effects).acquired = true) :
    (∀ (eid : String) (db2 : Ledger), unreserveEvent eid db2 = fun id =>
      if id = eid then
        match db2 eid with
        | some r =>
          if r.status = some EventStatus.processing then none else some r
        | none => none
      else db2 id) ∧
    (handleWebhook hm parseEvent dispatchEffects nowSeconds nowMs (some secret)
        req db effects).ledger ev.event_id = none ∧
    (handleWebhook hm parseEvent dispatchEffects nowSeconds nowMs (some secret)
        req db effects).status = 500 := by
  have hchar : ∀ (eid : String) (db2 : Ledger), unreserveEvent eid db2 = fun id =>
      if id = eid then
        match db2 eid with
        | some r =>
          if r.status = some EventStatus.processing then none else some r
        | none => none
      else db2 id := by
    intro eid db2
    funext id
    by_cases hid : id = eid
    · subst hid
      cases hdb : db2 id with
      | none => simp [unreserveEvent, hdb]
      | some r =>
        by_cases hp : r.status = some EventStatus.processing
        · simp [unreserveEvent, hdb, hp]
        · simp [unreserveEvent, hdb, hp]
    · cases hdb : db2 eid with
      | none => simp [unreserveEvent, hdb, hid]
      | some r =>
        by_cases hp : r.status = some EventStatus.processing
        · simp [unreserveEvent, hdb, hp, hid]
        · simp [unreserveEvent, hdb, hp, hid]
  refine ⟨hchar, ?_⟩
  cases hsig : req.signatureHeader with
  | none => exfalso; simp [handleWebhook, hsig] at hacq
  | some signature =>
    by_cases hver : verifyPaddleWebhookSignature hm nowSeconds req.body
        secret signature = true
    · by_cases hadm : (checkAndRecordEvent nowMs ev.event_id ev.event_type
          ev.occurred_at db).1 = true
      · exfalso
        simp [handleWebhook, hsig, hver, hparse, hadm] at hacq
      · have hres : handleWebhook hm parseEvent dispatchEffects nowSeconds nowMs
            (some secret) req db effects =
            ⟨500, unreserveEvent ev.event_id (checkAndRecordEvent nowMs
                ev.event_id ev.event_type ev.occurred_at db).2, effects,
              true, true⟩ := by
          simp [handleWebhook, hsig, hver, hparse, hadm, hfail]
        rw [hres]
        have hlock := checkAndRecordEvent_acquired nowMs ev.event_id
          ev.event_type ev.occurred_at db (by simpa using hadm)
        constructor
        · show unreserveEvent ev.event_id (checkAndRecordEvent nowMs
            ev.event_id ev.event_type ev.occurred_at db).2 ev.event_id = none
          rw [hchar]
          simp [hlock]
        · rfl
    · exfalso
      rw [Bool.not_eq_true] at hver
      simp [handleWebhook, hsig, hver] at hacq

/-! ### Entity tables: subscriptions and transactions.  `customData` is
a `v.any` payload; the handlers only ever read its `userId` and `orgId`
members, so it is modelled by those two optional fields.  JS truthiness
of an optional string (`undefined` and `""` are falsy) is `truthyS`. -/

/-- The two members of `custom_data` the component reads. -/
structure CustomData where
  userId : Option String
  orgId : Option String
deriving DecidableEq, Repr

/-- JS truthiness of a `string | undefined` value. -/
def truthyS : Option String → Bool
  | none => false
  | some s => !(s == "")

/-- One row of the `subscriptions` table (`schema.ts`), with the opaque
`scheduledChange` payload modelled as a string. -/
structure Subscription where
  paddleSubscriptionId : String
  paddleCustomerId : String
  status : String
  priceId : String
  quantity : Option Int
  scheduledChange : Option String
  currentBillingPeriodStart : Option String
  currentBillingPeriodEnd : Option String
  nextBilledAt : Option String
  pausedAt : Option String
  canceledAt : Option String
  customData : CustomData
  userId : Option String
  orgId : Option String
deriving DecidableEq, Repr

/-- The `subscriptions` table through its unique
`by_paddle_subscription_id` index. -/
def Subs : Type := String → Option Subscription

/-- One row of the `transactions` table; `id` stands for the Convex
`_id`, and list position stands for index order. -/
structure Transaction where
  id : Nat
  paddleTransactionId : String
  paddleCustomerId : Option String
  paddleSubscriptionId : Option String
  status : String
  currencyCode : Option String
  totalAmount : Option String
  collectionMode : Option String
  billedAt : Option String
  createdAt : Option String
  customData : CustomData
  userId : Option String
  orgId : Option String
deriving DecidableEq, Repr

/-- Arguments of `handleSubscriptionUpdated` (`private.ts` lines 298-311). -/
structure SubscriptionUpdateArgs where
  paddleSubscriptionId : String
  status : String
  priceId : Option String
  quantity : Option Int
  scheduledChange : Option String
  currentBillingPeriodStart : Option String
  currentBillingPeriodEnd : Option String
  nextBilledAt : Option String
  pausedAt : Option String
  canceledAt : Option String
  customData : Option CustomData
deriving Repr

/-- `handleSubscriptionUpdated` (`private.ts` lines 298-344).  The patch
writes `status` always; `priceId`, `customData`, `userId`, `orgId` only
when available; and `quantity`, `scheduledChange`,
`currentBillingPeriodStart`, `currentBillingPeriodEnd`, `nextBilledAt`,
`pausedAt`, `canceledAt` unconditionally — a Convex patch with an
explicit `undefined` value clears the field. -/
def handleSubscriptionUpdated (args : SubscriptionUpdateArgs) (subs : Subs) :
    Subs :=
  match subs args.paddleSubscriptionId with
  | none => subs
  | some subscription =>
    let cd := args.customData.getD { userId := none, orgId := none }
    let userId := cd.userId
    let orgId := cd.orgId
    let patched : Subscription :=
      { subscription with
        status := args.status
        priceId := match args.priceId with
          | some p => p
          | none => subscription.priceId
        quantity := args.quantity
        scheduledChange := args.scheduledChange
        currentBillingPeriodStart := args.currentBillingPeriodStart
        currentBillingPeriodEnd := args.currentBillingPeriodEnd
        nextBilledAt := args.nextBilledAt
        pausedAt := args.pausedAt
        canceledAt := args.canceledAt
        customData := match args.customData with
          | some _ => cd
          | none => subscription.customData
        userId := match userId with
          | some u => some u
          | none => subscription.userId
        orgId := match orgId with
          | some o => some o
          | none => subscription.orgId }
    fun id => if id = args.paddleSubscriptionId then some patched else subs id

/-- C10: when the subscription row exists, the patch leaves `priceId`,
`customData`, `userId`, `orgId` at their stored values whenever the
corresponding argument is absent, but writes `quantity`,
`scheduledChange`, `currentBillingPeriodStart`,
`currentBillingPeriodEnd`, `nextBilledAt`, `pausedAt`, `canceledAt`
unconditionally with the argument values, clearing them when absent. -/
theorem c10_subscription_update_frame (args : SubscriptionUpdateArgs)
    (subs : Subs) (sub : Subscription)
    (h : subs args.paddleSubscriptionId = some sub) :
    handleSubscriptionUpdated args subs = fun id =>
      if id = args.paddleSubscriptionId then
        some { paddleSubscriptionId := sub.paddleSubscriptionId
               paddleCustomerId := sub.paddleCustomerId
               status := args.status
               priceId := match args.priceId with
                 | some p => p
                 | none => sub.priceId
               quantity := args.quantity
               scheduledChange := args.scheduledChange
               currentBillingPeriodStart := args.currentBillingPeriodStart
               currentBillingPeriodEnd := args.currentBillingPeriodEnd
               nextBilledAt := args.nextBilledAt
               pausedAt := args.pausedAt
               canceledAt := args.canceledAt
               customData := match args.customData with
                 | some cd => cd
                 | none => sub.customData
               userId := match
                   (args.customData.getD { userId := none, orgId := none }).userId with
                 | some u => some u
                 | none => sub.userId
               orgId := match
                   (args.customData.getD { userId := none, orgId := none }).orgId with
                 | some o => some o
                 | none => sub.orgId }
      else subs id := by
  unfold handleSubscriptionUpdated
  rw [h]
  cases hcd : args.customData with
  | none => rfl
  | some cd => rfl

/-- Concrete stored subscription row for witnesses. -/
def subStored : Subscription :=
  { paddleSubscriptionId := "sub_1", paddleCustomerId := "ctm_1",
    status := "active", priceId := "pri_1", quantity := some 2,
    scheduledChange := some "chg", currentBillingPeriodStart := some "s0",
    currentBillingPeriodEnd := some "e0", nextBilledAt := some "n0",
    pausedAt := none, canceledAt := none,
    customData := { userId := some "user_1", orgId := none },
    userId := some "user_1", orgId := none }

/-- A subscriptions table holding exactly `subStored`. -/
def subsOne : Subs :=
  fun id => if id = "sub_1" then some subStored else none

/-- Update arguments carrying only a status (everything optional absent). -/
def updArgsBare : SubscriptionUpdateArgs :=
  { paddleSubscriptionId := "sub_1", status := "past_due", priceId := none,
    quantity := none, scheduledChange := none,
    currentBillingPeriodStart := none, currentBillingPeriodEnd := none,
    nextBilledAt := none, pausedAt := none, canceledAt := none,
    customData := none }

/-- C10 witness: patching `subStored` with all-absent optional arguments
preserves `priceId`/`customData`/`userId`/`orgId` and clears the seven
unconditional fields. -/
theorem c10_subscription_update_frame_witness :
    handleSubscriptionUpdated updArgsBare subsOne = fun id =>
      if id = updArgsBare.paddleSubscriptionId then
        some { paddleSubscriptionId := subStored.paddleSubscriptionId
               paddleCustomerId := subStored.paddleCustomerId
               status := updArgsBare.status
               priceId := match updArgsBare.priceId with
                 | some p => p
                 | none => subStored.priceId
               quantity := updArgsBare.quantity
               scheduledChange := updArgsBare.scheduledChange
               currentBillingPeriodStart := updArgsBare.currentBillingPeriodStart
               currentBillingPeriodEnd := updArgsBare.currentBillingPeriodEnd
               nextBilledAt := updArgsBare.nextBilledAt
               pausedAt := updArgsBare.pausedAt
               canceledAt := updArgsBare.canceledAt
               customData := match updArgsBare.customData with
                 | some cd => cd
                 | none => subStored.customData
               userId := match
                   (updArgsBare.customData.getD
                     { userId := none, orgId := none }).userId with
                 | some u => some u
                 | none => subStored.userId
               orgId := match
                   (updArgsBare.customData.getD
                     { userId := none, orgId := none }).orgId with
                 | some o => some o
                 | none => subStored.orgId }
      else subsOne id :=
  c10_subscription_update_frame updArgsBare subsOne subStored rfl

/-- The linkage-resolution block shared verbatim by
`handleTransactionCreated` (`private.ts` lines 478-499) and the insert
path of `handleTransactionCompleted` (lines 589-608): take
`customData.userId` / `customData.orgId`; when both are falsy and a
truthy `paddleSubscriptionId` is given, look the subscription up and
take its `userId` / `orgId` instead (when found). -/
def resolveLinkage (cd : CustomData) (subId : Option String) (subs : Subs) :
    Option String × Option String :=
  let userId := cd.userId
  let orgId := cd.orgId
  if !truthyS userId && !truthyS orgId && truthyS subId then
    match subs (subId.getD "") with
    | some subscription => (subscription.userId, subscription.orgId)
    | none => (userId, orgId)
  else (userId, orgId)

/-- A fresh `_id` for an inserted transaction row. -/
def freshTxnId (txns : List Transaction) : Nat :=
  txns.foldl (fun m t => max m t.id) 0 + 1

/-- Arguments of `handleTransactionCreated` (`private.ts` lines 457-468). -/
structure TransactionCreateArgs where
  paddleTransactionId : String
  paddleCustomerId : Option String
  paddleSubscriptionId : Option String
  status : String
  currencyCode : Option String
  totalAmount : Option String
  collectionMode : Option String
  billedAt : Option String
  createdAt : Option String
  customData : Option CustomData
deriving Repr

/-- `handleTransactionCreated` (`private.ts` lines 456-519): insert only
if no row with this `paddleTransactionId` exists, resolving
`userId`/`orgId` via `resolveLinkage`. -/
def handleTransactionCreated (args : TransactionCreateArgs) (subs : Subs)
    (txns : List Transaction) : List Transaction :=
  match txns.find? (fun t => t.paddleTransactionId == args.paddleTransactionId) with
  | some _ => txns
  | none =>
    let cd := args.customData.getD { userId := none, orgId := none }
    let link := resolveLinkage cd args.paddleSubscriptionId subs
    txns ++ [{ id := freshTxnId txns
               paddleTransactionId := args.paddleTransactionId
               paddleCustomerId := args.paddleCustomerId
               paddleSubscriptionId := args.paddleSubscriptionId
               status := args.status
               currencyCode := args.currencyCode
               totalAmount := args.totalAmount
               collectionMode := args.collectionMode
               billedAt := args.billedAt
               createdAt := args.createdAt
               customData := cd
               userId := link.1
               orgId := link.2 }]

/-- Arguments of `handleTransactionCompleted` (`private.ts` lines 556-563). -/
structure TransactionCompleteArgs where
  paddleTransactionId : String
  paddleCustomerId : Option String
  paddleSubscriptionId : Option String
  totalAmount : Option String
  billedAt : Option String
  customData : Option CustomData
deriving Repr

/-- `handleTransactionCompleted` (`private.ts` lines 555-625): patch an
existing row to `status = "completed"` (writing the optional arguments
only when present), or insert a new completed row with linkage resolved
as in `handleTransactionCreated`. -/
def handleTransactionCompleted (args : TransactionCompleteArgs) (subs : Subs)
    (txns : List Transaction) : List Transaction :=
  match txns.find? (fun t => t.paddleTransactionId == args.paddleTransactionId) with
  | some t0 =>
    txns.map (fun t =>
      if t.id = t0.id then
        { t with
          status := "completed"
          totalAmount := match args.totalAmount with
            | some a => some a
            | none => t.totalAmount
          billedAt := match args.billedAt with
            | some b => some b
            | none => t.billedAt
          paddleCustomerId := match args.paddleCustomerId with
            | some c => some c
            | none => t.paddleCustomerId
          paddleSubscriptionId := match args.paddleSubscriptionId with
            | some s => some s
            | none => t.paddleSubscriptionId }
      else t)
  | none =>
    let cd := args.customData.getD { userId := none, orgId := none }
    let link := resolveLinkage cd args.paddleSubscriptionId subs
    txns ++ [{ id := freshTxnId txns
               paddleTransactionId := args.paddleTransactionId
               paddleCustomerId := args.paddleCustomerId
               paddleSubscriptionId := args.paddleSubscriptionId
               status := "completed"
               currencyCode := none
               totalAmount := args.totalAmount
               collectionMode := none
               billedAt := args.billedAt
               createdAt := none
               customData := cd
               userId := link.1
               orgId := link.2 }]

/-- C8: when no row with the given transaction id exists, both
`handleTransactionCreated` and the insert path of
`handleTransactionCompleted` append one new row whose `userId`/`orgId`
come from `resolveLinkage`; and `resolveLinkage` takes custom-data
first — whenever either custom-data value is truthy it returns them
unchanged — and falls back to the linked subscription's values exactly
when both are falsy and a truthy subscription id finds a row. -/
theorem c8_transaction_linkage (cArgs : TransactionCreateArgs)
    (fArgs : TransactionCompleteArgs) (subs : Subs)
    (txns1 txns2 : List Transaction)
    (h1 : txns1.find?
      (fun t => t.paddleTransactionId == cArgs.paddleTransactionId) = none)
    (h2 : txns2.find?
      (fun t => t.paddleTransactionId == fArgs.paddleTransactionId) = none) :
    (handleTransactionCreated cArgs subs txns1 = txns1 ++
      [{ id := freshTxnId txns1
         paddleTransactionId := cArgs.paddleTransactionId
         paddleCustomerId := cArgs.paddleCustomerId
         paddleSubscriptionId := cArgs.paddleSubscriptionId
         status := cArgs.status
         currencyCode := cArgs.currencyCode
         totalAmount := cArgs.totalAmount
         collectionMode := cArgs.collectionMode
         billedAt := cArgs.billedAt
         createdAt := cArgs.createdAt
         customData := cArgs.customData.getD { userId := none, orgId := none }
         userId := (resolveLinkage
           (cArgs.customData.getD { userId := none, orgId := none })
           cArgs.paddleSubscriptionId subs).1
         orgId := (resolveLinkage
           (cArgs.customData.getD { userId := none, orgId := none })
           cArgs.paddleSubscriptionId subs).2 }]) ∧
    (handleTransactionCompleted fArgs subs txns2 = txns2 ++
      [{ id := freshTxnId txns2
         paddleTransactionId := fArgs.paddleTransactionId
         paddleCustomerId := fArgs.paddleCustomerId
         paddleSubscriptionId := fArgs.paddleSubscriptionId
         status := "completed"
         currencyCode := none
         totalAmount := fArgs.totalAmount
         collectionMode := none
         billedAt := fArgs.billedAt
         createdAt := none
         customData := fArgs.customData.getD { userId := none, orgId := none }
         userId := (resolveLinkage
           (fArgs.customData.getD { userId := none, orgId := none })
           fArgs.paddleSubscriptionId subs).1
         orgId := (resolveLinkage
           (fArgs.customData.getD { userId := none, orgId := none })
           fArgs.paddleSubscriptionId subs).2 }]) ∧
    (∀ cd : CustomData, ∀ subId : Option String,
      (truthyS cd.userId || truthyS cd.orgId) = true →
      resolveLinkage cd subId subs = (cd.userId, cd.orgId)) ∧
    (∀ cd : CustomData, ∀ sid : String, ∀ sub : Subscription,
      truthyS cd.userId = false → truthyS cd.orgId = false → sid ≠ "" →
      subs sid = some sub →
      resolveLinkage cd (some sid) subs = (sub.userId, sub.orgId)) := by
  refine ⟨?_, ?_, ?_, ?_⟩
  · unfold handleTransactionCreated
    rw [h1]
  · unfold handleTransactionCompleted
    rw [h2]
  · intro cd subId htruthy
    unfold resolveLinkage
    rcases Bool.or_eq_true_iff.mp htruthy with hu | ho
    · simp [hu]
    · simp [ho]
  · intro cd sid sub hu ho hne hfind
    have hsid : truthyS (some sid) = true := by
      unfold truthyS
      simp [hne]
    simp [resolveLinkage, hu, ho, hsid, hfind]

/-- Create-arguments with custom-data linkage present. -/
def txnArgsWithCd : TransactionCreateArgs :=
  { paddleTransactionId := "txn_1", paddleCustomerId := none,
    paddleSubscriptionId := none, status := "billed", currencyCode := none,
    totalAmount := none, collectionMode := none, billedAt := none,
    createdAt := none,
    customData := some { userId := some "user_1", orgId := none } }

/-- Complete-arguments without custom-data but with a subscription link. -/
def txnArgsViaSub : TransactionCompleteArgs :=
  { paddleTransactionId := "txn_2", paddleCustomerId := none,
    paddleSubscriptionId := some "sub_1", totalAmount := some "100",
    billedAt := none, customData := none }

/-- C8 witness: over `subsOne`, a create with custom-data keeps the
custom-data linkage, and a completed-insert without custom-data falls
back to the stored subscription's linkage. -/
theorem c8_transaction_linkage_witness :
    (handleTransactionCreated txnArgsWithCd subsOne [] = [
      { id := 1, paddleTransactionId := "txn_1", paddleCustomerId := none,
        paddleSubscriptionId := none, status := "billed", currencyCode := none,
        totalAmount := none, collectionMode := none, billedAt := none,
        createdAt := none,
        customData := { userId := some "user_1", orgId := none },
        userId := some "user_1", orgId := none }]) ∧
    (handleTransactionCompleted txnArgsViaSub subsOne [] = [
      { id := 1, paddleTransactionId := "txn_2", paddleCustomerId := none,
        paddleSubscriptionId := some "sub_1", status := "completed",
        currencyCode := none, totalAmount := some "100",
        collectionMode := none, billedAt := none, createdAt := none,
        customData := { userId := none, orgId := none },
        userId := some "user_1", orgId := none }]) ∧
    (resolveLinkage { userId := some "user_1", orgId := none } none subsOne
      = (some "user_1", none)) ∧
    (resolveLinkage { userId := none, orgId := none } (some "sub_1") subsOne
      = (subStored.userId, subStored.orgId)) := by
  have H := c8_transaction_linkage txnArgsWithCd txnArgsViaSub subsOne [] []
    rfl rfl
  exact ⟨H.1, H.2.1,
    H.2.2.1 { userId := some "user_1", orgId := none } none (by decide),
    H.2.2.2 { userId := none, orgId := none } "sub_1" subStored rfl rfl
      (by decide) rfl⟩

/-! ### The transaction backfill inside `handleSubscriptionCreated`
(`private.ts` lines 268-292).  The `while` loop is modelled with fuel:
`none` means the fuel ran out, so `∀ fuel, ... = none` states that the
source loop never exits. -/

/-- `BATCH_SIZE = 100` (`private.ts` line 271). -/
def BATCH_SIZE : Nat := 100

/-- The filter of `batch` rows to patch (`private.ts` line 282):
`!txn.userId || !txn.orgId`. -/
def needsLink (t : Transaction) : Bool :=
  !truthyS t.userId || !truthyS t.orgId

/-- The patch at `private.ts` lines 284-287: the `userId` key is present
exactly when the argument is truthy and the fetched row's `userId` is
falsy (likewise `orgId`); `snapshot` is the fetched row deciding key
presence, `current` the row being written. -/
def applyBackfillPatch (userId orgId : Option String)
    (snapshot current : Transaction) : Transaction :=
  { current with
    userId := if truthyS userId && !truthyS snapshot.userId then userId
      else current.userId
    orgId := if truthyS orgId && !truthyS snapshot.orgId then orgId
      else current.orgId }

/-- The page query (`private.ts` lines 275-280): first `BATCH_SIZE` rows
matching the subscription id in index order. -/
def backfillQuery (subId : String) (txns : List Transaction) :
    List Transaction :=
  (txns.filter (fun t => t.paddleSubscriptionId == some subId)).take BATCH_SIZE

/-- One iteration of the `while` body: fetch, filter, patch each row,
and recompute `hasMore = (batch.length === BATCH_SIZE && toUpdate.length > 0)`. -/
def backfillStep (userId orgId : Option String) (subId : String)
    (txns : List Transaction) : List Transaction × Bool :=
  let batch := backfillQuery subId txns
  let toUpdate := batch.filter needsLink
  let txns2 := toUpdate.foldl
    (fun acc t => acc.map
      (fun r => if r.id = t.id then applyBackfillPatch userId orgId t r else r))
    txns
  (txns2, (batch.length == BATCH_SIZE) && !(toUpdate.length == 0))

/-- The `while (hasMore)` loop, fuelled. -/
def backfillLoop (userId orgId : Option String) (subId : String) :
    Nat → List Transaction → Option (List Transaction)
  | 0, _ => none
  | fuel + 1, txns =>
    let s := backfillStep userId orgId subId txns
    if s.2 then backfillLoop userId orgId subId fuel s.1 else some s.1

/-- Arguments of `handleSubscriptionCreated` (`private.ts` lines 225-236). -/
structure SubscriptionCreateArgs where
  paddleSubscriptionId : String
  paddleCustomerId : String
  status : String
  priceId : String
  quantity : Option Int
  scheduledChange : Option String
  currentBillingPeriodStart : Option String
  currentBillingPeriodEnd : Option String
  nextBilledAt : Option String
  customData : Option CustomData
deriving Repr

/-- `handleSubscriptionCreated` (`private.ts` lines 224-296): insert the
subscription if absent, then — when the custom-data linkage is truthy —
run the backfill loop.  `none` = the loop never terminated. -/
def handleSubscriptionCreated (fuel : Nat) (args : SubscriptionCreateArgs)
    (subs : Subs) (txns : List Transaction) :
    Option (Subs × List Transaction) :=
  let cd := args.customData.getD { userId := none, orgId := none }
  let userId := cd.userId
  let orgId := cd.orgId
  let subs2 : Subs :=
    match subs args.paddleSubscriptionId with
    | some _ => subs
    | none => fun id =>
        if id = args.paddleSubscriptionId then
          some { paddleSubscriptionId := args.paddleSubscriptionId
                 paddleCustomerId := args.paddleCustomerId
                 status := args.status
                 priceId := args.priceId
                 quantity := args.quantity
                 scheduledChange := args.scheduledChange
                 currentBillingPeriodStart := args.currentBillingPeriodStart
                 currentBillingPeriodEnd := args.currentBillingPeriodEnd
                 nextBilledAt := args.nextBilledAt
                 pausedAt := none
                 canceledAt := none
                 customData := cd
                 userId := userId
                 orgId := orgId }
        else subs id
  if truthyS userId || truthyS orgId then
    (backfillLoop userId orgId args.paddleSubscriptionId fuel txns).map
      (fun t => (subs2, t))
  else some (subs2, txns)

theorem foldl_patch_noop (uid oid : Option String) :
    ∀ ts : List Transaction,
      (∀ t ∈ ts, ∀ r : Transaction, applyBackfillPatch uid oid t r = r) →
      ∀ acc : List Transaction,
        ts.foldl (fun acc t => acc.map
          (fun r => if r.id = t.id then applyBackfillPatch uid oid t r else r))
          acc = acc := by
  intro ts
  induction ts with
  | nil => intro _ acc; rfl
  | cons hd tl ih =>
    intro hnoop acc
    rw [List.foldl_cons]
    have hmap : (fun r : Transaction =>
        if r.id = hd.id then applyBackfillPatch uid oid hd r else r) =
        fun r => r := by
      funext r
      rw [hnoop hd (List.mem_cons_self hd tl) r, ite_self]
    rw [hmap, List.map_id']
    exact ih (fun t ht r => hnoop t (List.mem_cons_of_mem hd ht) r) acc

/-- A full page of rows that all "need" patching (`orgId` falsy) yet
that the patch cannot change (`userId` already truthy, `orgId` argument
absent) leaves the state unchanged with `hasMore = true`. -/
theorem backfillStep_stuck (uid : Option String) (sid : String)
    (txns : List Transaction) (hlen : txns.length = BATCH_SIZE)
    (hall : ∀ t ∈ txns, (t.paddleSubscriptionId == some sid) = true ∧
      truthyS t.userId = true ∧ truthyS t.orgId = false) :
    backfillStep uid none sid txns = (txns, true) := by
  have hbatch : backfillQuery sid txns = txns := by
    unfold backfillQuery
    rw [List.filter_eq_self.mpr (fun a ha => (hall a ha).1)]
    rw [← hlen, List.take_length]
  have hupd : txns.filter needsLink = txns := by
    apply List.filter_eq_self.mpr
    intro a ha
    unfold needsLink
    rw [(hall a ha).2.1, (hall a ha).2.2]
    rfl
  have hnoop : ∀ t ∈ txns, ∀ r : Transaction,
      applyBackfillPatch uid none t r = r := by
    intro t ht r
    unfold applyBackfillPatch
    rw [(hall t ht).2.1]
    simp [truthyS]
  simp only [backfillStep]
  rw [hbatch, hupd, foldl_patch_noop uid none txns hnoop txns, hlen]
  simp [BATCH_SIZE]

/-- One row of the state on which the backfill loop diverges. -/
def stuckTxn (i : Nat) : Transaction :=
  { id := i, paddleTransactionId := "txn_b" ++ toString i,
    paddleCustomerId := none, paddleSubscriptionId := some "sub_1",
    status := "billed", currencyCode := none, totalAmount := none,
    collectionMode := none, billedAt := none, createdAt := none,
    customData := { userId := none, orgId := none },
    userId := some "user_1", orgId := none }

/-- A full page (100 rows) of transactions for `sub_1`, all with
`userId` set and `orgId` missing. -/
def stuckTxns : List Transaction := (List.range BATCH_SIZE).map stuckTxn

/-- Create-arguments whose custom data carries only a `userId`. -/
def subCreateArgsStuck : SubscriptionCreateArgs :=
  { paddleSubscriptionId := "sub_1", paddleCustomerId := "ctm_1",
    status := "active", priceId := "pri_1", quantity := none,
    scheduledChange := none, currentBillingPeriodStart := none,
    currentBillingPeriodEnd := none, nextBilledAt := none,
    customData := some { userId := some "user_1", orgId := none } }

/-- C5 (divergence): with 100 stored transactions for the subscription
whose `userId` is already set and whose `orgId` stays missing because
the event's custom data has no `orgId`, every page fetch returns the
same full batch, every row still "needs" patching, no patch changes
anything, and `hasMore` never becomes false: for every fuel the loop
inside `handleSubscriptionCreated` fails to terminate. -/
theorem c5_backfill_nontermination (fuel : Nat) :
    handleSubscriptionCreated fuel subCreateArgsStuck
      (fun _ => none) stuckTxns = none := by
  have hall : ∀ t ∈ stuckTxns, (t.paddleSubscriptionId == some "sub_1") = true ∧
      truthyS t.userId = true ∧ truthyS t.orgId = false := by
    intro t ht
    simp only [stuckTxns, List.mem_map] at ht
    obtain ⟨i, _, rfl⟩ := ht
    exact ⟨rfl, rfl, rfl⟩
  have hstep : backfillStep (some "user_1") none "sub_1" stuckTxns
      = (stuckTxns, true) :=
    backfillStep_stuck (some "user_1") "sub_1" stuckTxns
      (by simp [stuckTxns, BATCH_SIZE]) hall
  have hloop : ∀ n : Nat,
      backfillLoop (some "user_1") none "sub_1" n stuckTxns = none := by
    intro n
    induction n with
    | zero => rfl
    | succ m ih =>
      simp only [backfillLoop, hstep]
      exact ih
  have hguard : (truthyS (some "user_1") || truthyS none) = true := by decide
  simp only [handleSubscriptionCreated, subCreateArgsStuck, Option.getD_some,
    hguard, eq_self_iff_true, if_true, hloop fuel, Option.map_none']

/-- An HMAC oracle returning the single byte `0x00` for every input. -/
def hmOneByte : String → String → Option (List (Fin 256)) :=
  fun _ _ => some [(0 : Fin 256)]

/-- A parser returning a fixed event for every body. -/
def parseEvt1 : String → Option PaddleEvent :=
  fun _ => some { event_id := "evt_1", event_type := "type", occurred_at := "occ" }

/-- A request correctly signed against `hmOneByte` at time 0. -/
def reqSigned : WebhookRequest :=
  { signatureHeader := some "ts=0;h1=00", body := "body" }

/-- An empty ledger. -/
def ledgerEmpty : Ledger := fun _ => none

/-- C6 witness: a concrete correctly-signed request over an empty
ledger whose dispatch throws; the lock is acquired, then deleted, and
the response is 500.  The unreserve characterization is instanced at a
concrete `processing` ledger. -/
theorem c6_failure_rollback_witness :
    (unreserveEvent "evt_1" (ledgerWith recProcessing) = fun id =>
      if id = "evt_1" then
        match ledgerWith recProcessing "evt_1" with
        | some r =>
          if r.status = some EventStatus.processing then none else some r
        | none => none
      else ledgerWith recProcessing id) ∧
    (handleWebhook hmOneByte parseEvt1 (fun _ : Nat => none) 0 0 (some "whsec")
        reqSigned ledgerEmpty 0).ledger "evt_1" = none ∧
    (handleWebhook hmOneByte parseEvt1 (fun _ : Nat => none) 0 0 (some "whsec")
        reqSigned ledgerEmpty 0).status = 500 := by
  have H := c6_failure_rollback hmOneByte parseEvt1 (fun _ : Nat => none) 0 0
    "whsec" reqSigned ledgerEmpty 0
    { event_id := "evt_1", event_type := "type", occurred_at := "occ" }
    rfl rfl (by decide)
  exact ⟨H.1 "evt_1" (ledgerWith recProcessing), H.2.1, H.2.2⟩

end ConvexPaddle
